import Mathlib

/-!
Shallow embedding of the text-extraction core of the voz-crawler repository
(`src/op_analyzer.py`, `src/reply_analyzer.py`, `src/data_analyzer.py`),
together with theorems settling the frozen claims about its specification.

Strings are modelled as `List Char`.  All characters occurring in the
analyzers' keyword dictionaries, regex patterns and allow-list are single
precomposed NFC codepoints (verified against the source bytes), so Unicode
NFC normalization acts as the identity on the modelled alphabet and
`str.lower` acts pointwise on characters (it is modelled on the ASCII
range, the only range it changes on the inputs handled here).
Floating point money arithmetic is modelled exactly over `ℚ`; every value
produced by the parser is a small decimal fraction, far below any range
where `float` rounding could affect a comparison appearing in a claim.
-/

namespace Voz

/-- The whitespace characters of Python's `str.strip` / regex `\s`
(modelled on the ASCII range). -/
def wsChars : List Char := [' ', '\t', '\n', '\r', '\x0b', '\x0c']

def isWsChar (c : Char) : Bool := wsChars.contains c

def isDigitChar (c : Char) : Bool := decide ('0' ≤ c) && decide (c ≤ '9')

/-- `str.lower`, modelled pointwise on characters (ASCII range). -/
def pyLower (c : Char) : Char :=
  if 'A' ≤ c ∧ c ≤ 'Z' then Char.ofNat (c.toNat + 32) else c

/-- `unicodedata.normalize('NFC', ·)`.  Every character of the embedded
alphabet (keyword dictionaries, regex literals, allow-list, test inputs) is
a single precomposed NFC codepoint, and NFC is the identity on strings of
such codepoints, so the embedding models it as the identity function. -/
def nfcNorm (l : List Char) : List Char := l

/-- Python `str.strip()`: remove leading and trailing whitespace. -/
def pyStrip (l : List Char) : List Char :=
  (l.dropWhile isWsChar).rdropWhile isWsChar

/-- `OPAnalyzer.preprocess_text` (src/op_analyzer.py lines 115-126):
lowercase, Unicode-NFC normalize, strip; empty input yields "". -/
def opPreprocessText (text : List Char) : List Char :=
  if text.isEmpty then [] else pyStrip (nfcNorm (text.map pyLower))

/-- `ReplyAnalyzer.preprocess_text` (src/reply_analyzer.py lines 136-147):
identical body to the OP analyzer's version. -/
def replyPreprocessText (text : List Char) : List Char :=
  if text.isEmpty then [] else pyStrip (nfcNorm (text.map pyLower))

/-- The `allowed_chars` literal of `DataAnalyzer.preprocess_text`
(src/data_analyzer.py line 161): ASCII lowercase, digits, the Vietnamese
diacritic vowel set, and `. ,:-+` (the blank between `.` and `,` is the
space character). -/
def allowedChars : List Char :=
  ("abcdefghijklmnopqrstuvwxyz0123456789áàảãạăắằẳẵặâấầẩẫậđéèẻẽẹêếềểễệíìỉĩịóòỏõọôốồổỗộơớờởỡợúùủũụưứừửữựýỳỷỹỵ. ,:-+").toList

def isAllowedChar (c : Char) : Bool := allowedChars.contains c

/-- `re.sub(r'\s+', ' ', text)`: replace every maximal run of whitespace
characters by a single space. -/
def collapseWs : List Char → List Char
  | [] => []
  | c :: rest =>
    if isWsChar c then ' ' :: collapseWs (rest.dropWhile isWsChar)
    else c :: collapseWs rest
termination_by l => l.length
decreasing_by
  · simp only [List.length_cons]
    exact Nat.lt_succ_of_le (List.dropWhile_suffix isWsChar).sublist.length_le
  · simp

/-- `DataAnalyzer.preprocess_text` (src/data_analyzer.py lines 149-167):
lowercase, NFC, filter to the allow-list, collapse whitespace runs to a
single space, strip. -/
def dataPreprocessText (text : List Char) : List Char :=
  if text.isEmpty then []
  else pyStrip (collapseWs ((nfcNorm (text.map pyLower)).filter isAllowedChar))

/-!  A small backtracking matcher for the analyzers' regex patterns.

`RxM α` is a pattern fragment: on a suffix of the text it returns every way
the fragment can match a prefix of that suffix, as (semantic value,
remaining suffix) pairs, ordered by Python `re`'s backtracking preference
(ordered alternation, greedy quantifiers).  The head of the list is the
match Python's engine commits to.  Quantifiers occur in the embedded
patterns only over single-character classes (`\s*`, `\d+`, `\d*`,
`[.,]?`), for which greedy matching with give-back is implemented exactly
by trying the longest class-prefix first. -/

def RxM (α : Type) : Type := List Char → List (α × List Char)

def rxPure (a : α) : RxM α := fun s => [(a, s)]

def rxFail : RxM α := fun _ => []

def rxBind (p : RxM α) (f : α → RxM β) : RxM β :=
  fun s => (p s).flatMap (fun ar => f ar.1 ar.2)

def rxMap (f : α → β) (p : RxM α) : RxM β :=
  fun s => (p s).map (fun ar => (f ar.1, ar.2))

def rxU (p : RxM α) : RxM Unit := rxMap (fun _ => ()) p

def rxThen (p : RxM α) (q : RxM β) : RxM β := rxBind p (fun _ => q)

/-- ordered alternation `a|b`. -/
def rxOr (p q : RxM α) : RxM α := fun s => p s ++ q s

def rxOrs (ps : List (RxM α)) : RxM α := ps.foldr rxOr rxFail

/-- one character from a character class `[...]`. -/
def rxCls (cs : List Char) : RxM Char := fun s =>
  match s with
  | [] => []
  | c :: rest => if cs.contains c then [(c, rest)] else []

def rxClsP (q : Char → Bool) : RxM Char := fun s =>
  match s with
  | [] => []
  | c :: rest => if q c then [(c, rest)] else []

/-- a literal character sequence. -/
def rxLit : List Char → RxM Unit
  | [] => rxPure ()
  | c :: cs => rxThen (rxCls [c]) (rxLit cs)

/-- greedy `X*` over a single-character class: longest first, giving
characters back one at a time on failure of the rest of the pattern. -/
def rxStarP (q : Char → Bool) : RxM (List Char) := fun s =>
  let pre := s.takeWhile q
  (List.range (pre.length + 1)).map (fun k =>
    let n := pre.length - k
    (pre.take n, s.drop n))

/-- greedy `X?`. -/
def rxOpt (p : RxM α) : RxM (Option α) := fun s =>
  (p s).map (fun ar => (some ar.1, ar.2)) ++ [(none, s)]

/-- `\s*`. -/
def rxWsStar : RxM (List Char) := rxStarP isWsChar

/-- `\s`. -/
def rxWs : RxM Char := rxClsP isWsChar

/-- the numeric capture `(\d+[.,]?\d*)`, returning the captured text. -/
def rxNum : RxM (List Char) :=
  rxBind (rxClsP isDigitChar) fun d =>
  rxBind (rxStarP isDigitChar) fun ds =>
  rxBind (rxOpt (rxCls ['.', ','])) fun sep =>
  rxBind (rxStarP isDigitChar) fun fs =>
  rxPure (d :: ds ++ (match sep with | some c => [c] | none => []) ++ fs)

/-- a sequence of single-character classes (a literal word in which some
positions admit diacritic alternatives), returning the consumed text. -/
def rxSeqCls : List (List Char) → RxM (List Char)
  | [] => rxPure []
  | cs :: rest => rxBind (rxCls cs) fun c => rxMap (fun l => c :: l) (rxSeqCls rest)

/-- the unit capture `(t[rỉ]|k|m|triệu|nghìn|tr|ngàn|đồng)`, alternatives
tried in source order, returning the captured text. -/
def rxUnit : RxM (List Char) :=
  rxOrs [
    rxSeqCls [['t'], ['r', 'ỉ']],
    rxMap (fun _ => ("k").toList) (rxLit (("k").toList)),
    rxMap (fun _ => ("m").toList) (rxLit (("m").toList)),
    rxMap (fun _ => ("triệu").toList) (rxLit (("triệu").toList)),
    rxMap (fun _ => ("nghìn").toList) (rxLit (("nghìn").toList)),
    rxMap (fun _ => ("tr").toList) (rxLit (("tr").toList)),
    rxMap (fun _ => ("ngàn").toList) (rxLit (("ngàn").toList)),
    rxMap (fun _ => ("đồng").toList) (rxLit (("đồng").toList))]

/-- `(?:kho[ảả]ng|t[ầà]m)` (the class `[ảả]` repeats one codepoint, so it
is the literal `khoảng`). -/
def rxKT : RxM Unit :=
  rxOr (rxLit (("khoảng").toList)) (rxU (rxSeqCls [['t'], ['ầ', 'à'], ['m']]))

/-- `(?:kho[ảả]ng|t[ầà]m|\:|\s)`. -/
def rxKTColonWs : RxM Unit :=
  rxOrs [rxLit (("khoảng").toList), rxU (rxSeqCls [['t'], ['ầ', 'à'], ['m']]),
    rxLit [':'], rxU rxWs]

/-- the shared tail `(\d+[.,]?\d*)\s*(t[rỉ]|k|m|triệu|nghìn|tr|ngàn|đồng)`
of every money pattern, returning the two capture groups. -/
def rxNumUnit : RxM (List Char × List Char) :=
  rxBind rxNum fun g1 => rxThen rxWsStar (rxMap (fun g2 => (g1, g2)) rxUnit)

/-- a full-pattern match found by `re.finditer`: start position, length,
semantic value of the captures, and the overall matched text (group 0). -/
structure RxHit (α : Type) where
  pos : ℕ
  len : ℕ
  val : α
  matched : List Char
deriving Repr, DecidableEq

def findIterAux (p : RxM α) : ℕ → List Char → ℕ → List (RxHit α)
  | 0, _, _ => []
  | fuel + 1, s, pos =>
    match p s with
    | (a, rest) :: _ =>
      let len := s.length - rest.length
      if len = 0 then
        { pos := pos, len := 0, val := a, matched := [] } ::
          (match s with
           | [] => []
           | _ :: s1 => findIterAux p fuel s1 (pos + 1))
      else
        { pos := pos, len := len, val := a, matched := s.take len } ::
          findIterAux p fuel (s.drop len) (pos + len)
    | [] =>
      match s with
      | [] => []
      | _ :: s1 => findIterAux p fuel s1 (pos + 1)

/-- `re.finditer`: scan left to right, at each position commit to the
engine's preferred match, emit it, and continue after its end
(non-overlapping; after an empty match, advance one character). -/
def findIter (p : RxM α) (s : List Char) : List (RxHit α) :=
  findIterAux p (s.length + 1) s 0

/-! Money value normalization (three textually identical copies in the
source) and the budget / price extraction loops.

Every number produced by the money parser is a decimal fraction divided by
1, 1000, or 1000000, i.e. of the form `num / 10 ^ exp`; that form is the
embedding's number type.  It computes exactly where Python computes with
binary floats; the resulting rounding error (below 2^-40 relative, on
values whose comparisons are against whole decimal constants) affects none
of the comparisons the analyzers make, so the spec's "within
floating-point tolerance" equalities become exact equalities over `ℚ`. -/

/-- A nonnegative decimal number `num / 10 ^ exp` (the exact value of every
float the money parser manipulates). -/
structure DecQ where
  num : ℕ
  exp : ℕ
deriving Repr, DecidableEq

def DecQ.toRat (a : DecQ) : ℚ := (a.num : ℚ) / (10 : ℚ) ^ a.exp

def DecQ.ofNat (n : ℕ) : DecQ := { num := n, exp := 0 }

/-- decidable `a ≤ b` by cross multiplication. -/
def DecQ.ble (a b : DecQ) : Bool :=
  decide (a.num * 10 ^ b.exp ≤ b.num * 10 ^ a.exp)

/-- Python float truthiness: `0.0` is falsy. -/
def DecQ.isZero (a : DecQ) : Bool := decide (a.num = 0)

def digitsToNat (ds : List Char) : ℕ :=
  ds.foldl (fun n c => 10 * n + (c.toNat - ('0').toNat)) 0

/-- Python `float(·)` restricted to the language `\d+` `[.]?` `\d*` of the
numeric captures (after `,` was replaced by `.`); anything else raises
`ValueError`, modelled as `none`. -/
def parseFloatDec (cs : List Char) : Option DecQ :=
  match cs.span isDigitChar with
  | (ds, []) => if ds.isEmpty then none else some (DecQ.ofNat (digitsToNat ds))
  | (ds, c :: fs) =>
    if ds.isEmpty then none
    else if c = '.' ∧ fs.all isDigitChar then
      some { num := digitsToNat ds * 10 ^ fs.length + digitsToNat fs, exp := fs.length }
    else none

def unitsMillion : List (List Char) :=
  [("tr").toList, ("triệu").toList, ("trieu").toList, ("củ").toList,
   ("cu").toList, ("trĩ").toList, ("tri").toList]

def unitsThousand : List (List Char) :=
  [("nghìn").toList, ("nghin").toList, ("ngàn").toList, ("ngan").toList]

def unitsDong : List (List Char) :=
  [("đồng").toList, ("dong").toList, ("vnd").toList, ("d").toList, ("đ").toList]

/-- `OPAnalyzer.normalize_money_value` (src/op_analyzer.py lines 160-181):
`float(value_str.replace(',', '.'))`, then the unit table (`÷1000` for the
thousands units and `k`, `÷1000000` for the đồng units, `×1` for the
million units and for an unrecognized unit); conversion failure is caught
and yields `None`. -/
def opNormalizeMoneyValue (valueStr unitStr : List Char) : Option DecQ :=
  match parseFloatDec (valueStr.map (fun c => if c = ',' then '.' else c)) with
  | none => none
  | some v =>
    let u := unitStr.map pyLower
    if unitsMillion.contains u then some v
    else if unitsThousand.contains u then some { num := v.num, exp := v.exp + 3 }
    else if u = ("k").toList then some { num := v.num, exp := v.exp + 3 }
    else if unitsDong.contains u then some { num := v.num, exp := v.exp + 6 }
    else some v

/-- `ReplyAnalyzer.normalize_money_value` (src/reply_analyzer.py lines
215-236), textually identical to the OP analyzer's copy. -/
def replyNormalizeMoneyValue (valueStr unitStr : List Char) : Option DecQ :=
  match parseFloatDec (valueStr.map (fun c => if c = ',' then '.' else c)) with
  | none => none
  | some v =>
    let u := unitStr.map pyLower
    if unitsMillion.contains u then some v
    else if unitsThousand.contains u then some { num := v.num, exp := v.exp + 3 }
    else if u = ("k").toList then some { num := v.num, exp := v.exp + 3 }
    else if unitsDong.contains u then some { num := v.num, exp := v.exp + 6 }
    else some v

/-- `DataAnalyzer.normalize_money_value` (src/data_analyzer.py lines
169-190), textually identical to the OP analyzer's copy. -/
def dataNormalizeMoneyValue (valueStr unitStr : List Char) : Option DecQ :=
  match parseFloatDec (valueStr.map (fun c => if c = ',' then '.' else c)) with
  | none => none
  | some v =>
    let u := unitStr.map pyLower
    if unitsMillion.contains u then some v
    else if unitsThousand.contains u then some { num := v.num, exp := v.exp + 3 }
    else if u = ("k").toList then some { num := v.num, exp := v.exp + 3 }
    else if unitsDong.contains u then some { num := v.num, exp := v.exp + 6 }
    else some v

structure MoneyValue where
  value : DecQ
  unit : List Char
  original_text : List Char
deriving Repr, DecidableEq

/-- `OPAnalyzer.budget_patterns` (src/op_analyzer.py lines 32-39), in
source order. -/
def budgetPat1 : RxM (List Char × List Char) :=
  rxThen (rxSeqCls [['n'], ['g'], ['a', 'â'], ['n']]) (rxThen rxWsStar
    (rxThen (rxSeqCls [['s'], ['á', 'a'], ['c'], ['h']]) (rxThen rxWsStar
      (rxThen rxKTColonWs (rxThen rxWsStar rxNumUnit)))))

def budgetPat2 : RxM (List Char × List Char) :=
  rxThen (rxSeqCls [['b'], ['u'], ['d', 'đ'], ['g'], ['e'], ['d', 't']])
    (rxThen rxWsStar (rxThen rxKTColonWs (rxThen rxWsStar rxNumUnit)))

def budgetPat3 : RxM (List Char × List Char) :=
  rxThen (rxSeqCls [['t'], ['ổ', 'ố'], ['n'], ['g']]) (rxThen rxWsStar
    (rxThen (rxOr
        (rxThen (rxLit (("chi").toList)) (rxThen rxWsStar
          (rxU (rxSeqCls [['p'], ['h'], ['í', 'i']]))))
        (rxU (rxSeqCls [['g'], ['i'], ['á', 'a']])))
      (rxThen rxWsStar (rxThen rxKTColonWs (rxThen rxWsStar rxNumUnit)))))

def budgetPat4 : RxM (List Char × List Char) :=
  rxThen (rxLit (("khoảng").toList)) (rxThen rxWsStar rxNumUnit)

def budgetPat5 : RxM (List Char × List Char) :=
  rxThen (rxSeqCls [['t'], ['ầ', 'à'], ['m']]) (rxThen rxWsStar rxNumUnit)

def budgetPat6 : RxM (List Char × List Char) := rxNumUnit

def budgetPatterns : List (RxM (List Char × List Char)) :=
  [budgetPat1, budgetPat2, budgetPat3, budgetPat4, budgetPat5, budgetPat6]

/-- `ReplyAnalyzer.price_patterns` (src/reply_analyzer.py lines 79-83), in
source order. -/
def pricePat1 : RxM (List Char × List Char) :=
  rxThen (rxSeqCls [['g'], ['i'], ['á', 'a']]) (rxThen rxWsStar
    (rxThen (rxOpt rxKT) (rxThen rxWsStar rxNumUnit)))

def pricePat2 : RxM (List Char × List Char) :=
  rxThen (rxOpt rxKT) (rxThen rxWsStar rxNumUnit)

def pricePat3 : RxM (List Char × List Char) := rxNumUnit

def pricePatterns : List (RxM (List Char × List Char)) :=
  [pricePat1, pricePat2, pricePat3]

/-- body of the per-match acceptance test of
`OPAnalyzer.extract_budget_from_text` (src/op_analyzer.py lines 139-153):
normalize to millions, then Python's
`if budget_in_million and 1 <= budget_in_million <= 100` (a falsy — `None`
or zero — value is rejected, the range test is inclusive on both ends). -/
def acceptBudget (h : RxHit (List Char × List Char)) : Option MoneyValue :=
  match opNormalizeMoneyValue h.val.1 h.val.2 with
  | none => none
  | some v =>
    if !v.isZero && DecQ.ble (DecQ.ofNat 1) v && DecQ.ble v (DecQ.ofNat 100) then
      some { value := v, unit := ("triệu").toList, original_text := h.matched }
    else none

/-- `OPAnalyzer.extract_budget_from_text` (src/op_analyzer.py lines
128-158): preprocess, then for each pattern in order, for each match in
textual order, return the first accepted candidate; `None` otherwise. -/
def extractBudgetFromText (text : List Char) : Option MoneyValue :=
  if text.isEmpty then none
  else
    let t := opPreprocessText text
    budgetPatterns.findSome? (fun p => (findIter p t).findSome? acceptBudget)

/-- all candidate matches `extract_budget_from_text` iterates over, in
iteration order (pattern-bank order, then textual order). -/
def budgetCandidates (text : List Char) : List (RxHit (List Char × List Char)) :=
  if text.isEmpty then []
  else budgetPatterns.flatMap (fun p => findIter p (opPreprocessText text))

/-- body of the per-match acceptance test of
`ReplyAnalyzer.extract_prices_from_text` (src/reply_analyzer.py lines
194-208): the reply price range test is `0.1 <= price_in_million <= 50`,
inclusive on both ends, after the same falsy check. -/
def acceptPrice (h : RxHit (List Char × List Char)) : Option MoneyValue :=
  match replyNormalizeMoneyValue h.val.1 h.val.2 with
  | none => none
  | some v =>
    if !v.isZero && DecQ.ble { num := 1, exp := 1 } v && DecQ.ble v (DecQ.ofNat 50) then
      some { value := v, unit := ("triệu").toList, original_text := h.matched }
    else none

/-- `ReplyAnalyzer.extract_prices_from_text` (src/reply_analyzer.py lines
181-213): preprocess, then collect every accepted match of every pattern,
in pattern-bank order then textual order (no deduplication). -/
def extractPricesFromText (text : List Char) : List MoneyValue :=
  if text.isEmpty then []
  else
    let t := replyPreprocessText text
    pricePatterns.flatMap (fun p => (findIter p t).filterMap acceptPrice)

/-- all candidate matches `extract_prices_from_text` iterates over, in
iteration order (pattern-bank order, then textual order). -/
def priceCandidates (text : List Char) : List (RxHit (List Char × List Char)) :=
  if text.isEmpty then []
  else pricePatterns.flatMap (fun p => findIter p (replyPreprocessText text))

/-! Keyword tagging: the component / brand taggers (word-boundary regex
search with context windows) and the purpose / special-requirement
taggers (plain substring containment). -/

/-- `ReplyAnalyzer.component_keywords` (src/reply_analyzer.py lines 32-76). -/
def componentKeywords : List (List Char × List (List Char)) := [
  (("cpu").toList,
    [("cpu").toList, ("processor").toList, ("intel").toList, ("amd").toList, ("ryzen").toList, ("core i").toList, ("i3").toList, ("i5").toList, ("i7").toList, ("i9").toList, ("threadripper").toList, ("xeon").toList, ("athlon").toList, ("pentium").toList, ("celeron").toList, ("phenom").toList]),
  (("mainboard").toList,
    [("mainboard").toList, ("motherboard").toList, ("mobo").toList, ("main").toList, ("bo mạch").toList, ("bo mạch chủ").toList, ("asus").toList, ("msi").toList, ("gigabyte").toList, ("asrock").toList, ("b660").toList, ("b760").toList, ("z690").toList, ("z790").toList, ("b550").toList, ("x570").toList, ("h610").toList, ("h770").toList]),
  (("ram").toList,
    [("ram").toList, ("memory").toList, ("bộ nhớ").toList, ("corsair").toList, ("kingston").toList, ("g.skill").toList, ("crucial").toList, ("ddr4").toList, ("ddr5").toList, ("dimm").toList, ("mhz").toList, ("16gb").toList, ("32gb").toList, ("8gb").toList]),
  (("gpu").toList,
    [("gpu").toList, ("graphics card").toList, ("card màn hình").toList, ("vga").toList, ("display card").toList, ("rtx").toList, ("gtx").toList, ("rx").toList, ("nvidia").toList, ("amd").toList, ("geforce").toList, ("radeon").toList, ("3050").toList, ("3060").toList, ("3070").toList, ("4060").toList, ("6600").toList, ("6700").toList]),
  (("ssd").toList,
    [("ssd").toList, ("solid state drive").toList, ("ổ cứng").toList, ("wd").toList, ("western digital").toList, ("samsung").toList, ("kingston").toList, ("crucial").toList, ("nvme").toList, ("m.2").toList, ("sata").toList, ("500gb").toList, ("1tb").toList, ("2tb").toList]),
  (("hdd").toList,
    [("hdd").toList, ("hard disk").toList, ("hard drive").toList, ("ổ cứng").toList, ("seagate").toList, ("toshiba").toList, ("wd").toList, ("western digital").toList, ("1tb").toList, ("2tb").toList, ("4tb").toList, ("7200rpm").toList]),
  (("psu").toList,
    [("psu").toList, ("power supply").toList, ("nguồn").toList, ("corsair").toList, ("cooler master").toList, ("evga").toList, ("seasonic").toList, ("thermaltake").toList, ("fsp").toList, ("xigmatek").toList, ("deepcool").toList, ("antec").toList, ("550w").toList, ("650w").toList, ("750w").toList, ("850w").toList, ("1000w").toList, ("gold").toList, ("bronze").toList, ("platinum").toList]),
  (("case").toList,
    [("case").toList, ("vỏ máy").toList, ("vỏ case").toList, ("thùng máy").toList, ("chassis").toList, ("nzxt").toList, ("lian li").toList, ("corsair").toList, ("cooler master").toList, ("thermaltake").toList, ("deepcool").toList, ("sama").toList]),
  (("cooling").toList,
    [("cooling").toList, ("cooler").toList, ("tản nhiệt").toList, ("aio").toList, ("water cooling").toList, ("liquid cooling").toList, ("air cooling").toList, ("fan").toList, ("quạt").toList, ("heatsink").toList, ("radiator").toList, ("noctua").toList, ("deepcool").toList, ("cooler master").toList, ("corsair").toList]),
  (("monitor").toList,
    [("monitor").toList, ("màn hình").toList, ("display").toList, ("lg").toList, ("dell").toList, ("samsung").toList, ("aoc").toList, ("asus").toList, ("viewsonic").toList, ("benq").toList, ("msi").toList, ("gigabyte").toList, ("acer").toList, ("alienware").toList, ("inch").toList, ("24\"").toList, ("27\"").toList, ("32\"").toList, ("75hz").toList, ("144hz").toList, ("165hz").toList, ("240hz").toList, ("fullhd").toList, ("qhd").toList, ("4k").toList, ("hdr").toList, ("ips").toList, ("va").toList, ("tn").toList])
]

/-- `ReplyAnalyzer.brand_keywords` (src/reply_analyzer.py lines 86-117). -/
def brandKeywords : List (List Char × List (List Char)) := [
  (("intel").toList,
    [("intel").toList, ("core i").toList, ("pentium").toList, ("celeron").toList, ("xeon").toList]),
  (("amd").toList,
    [("amd").toList, ("ryzen").toList, ("threadripper").toList, ("athlon").toList, ("phenom").toList]),
  (("nvidia").toList,
    [("nvidia").toList, ("rtx").toList, ("gtx").toList, ("geforce").toList]),
  (("radeon").toList,
    [("radeon").toList, ("rx").toList, ("amd graphics").toList]),
  (("asus").toList,
    [("asus").toList, ("rog").toList, ("tuf").toList, ("prime").toList, ("strix").toList]),
  (("gigabyte").toList,
    [("gigabyte").toList, ("aorus").toList]),
  (("msi").toList,
    [("msi").toList, ("meg").toList, ("mpg").toList, ("mag").toList]),
  (("asrock").toList,
    [("asrock").toList, ("taichi").toList, ("phantom gaming").toList]),
  (("corsair").toList,
    [("corsair").toList, ("vengeance").toList, ("dominator").toList]),
  (("kingston").toList,
    [("kingston").toList, ("hyperx").toList, ("fury").toList]),
  (("samsung").toList,
    [("samsung").toList, ("evo").toList, ("pro").toList, ("qvo").toList]),
  (("western_digital").toList,
    [("western digital").toList, ("wd").toList, ("blue").toList, ("black").toList, ("green").toList]),
  (("seagate").toList,
    [("seagate").toList, ("barracuda").toList, ("firecuda").toList]),
  (("gskill").toList,
    [("g.skill").toList, ("trident").toList, ("ripjaws").toList]),
  (("crucial").toList,
    [("crucial").toList, ("ballistix").toList, ("mx").toList]),
  (("nzxt").toList,
    [("nzxt").toList, ("h510").toList, ("h710").toList, ("kraken").toList]),
  (("cooler_master").toList,
    [("cooler master").toList, ("cm").toList, ("masterbox").toList, ("hyper").toList]),
  (("thermaltake").toList,
    [("thermaltake").toList, ("view").toList, ("core").toList, ("versa").toList]),
  (("lian_li").toList,
    [("lian li").toList, ("lancool").toList, ("o11").toList, ("dynamic").toList]),
  (("deepcool").toList,
    [("deepcool").toList, ("matrexx").toList, ("gammaxx").toList]),
  (("seasonic").toList,
    [("seasonic").toList, ("focus").toList, ("prime").toList]),
  (("evga").toList,
    [("evga").toList, ("supernova").toList, ("g2").toList, ("g3").toList, ("p2").toList]),
  (("noctua").toList,
    [("noctua").toList, ("nh-d15").toList, ("nh-u12").toList, ("nh-l9").toList]),
  (("arctic").toList,
    [("arctic").toList, ("freezer").toList, ("mx").toList, ("liquid").toList]),
  (("logitech").toList,
    [("logitech").toList, ("g502").toList, ("g305").toList, ("g pro").toList, ("gpro").toList]),
  (("steelseries").toList,
    [("steelseries").toList, ("rival").toList, ("sensei").toList, ("apex").toList]),
  (("razer").toList,
    [("razer").toList, ("deathadder").toList, ("viper").toList, ("blackwidow").toList, ("hunstman").toList]),
  (("hyperx").toList,
    [("hyperx").toList, ("alloy").toList, ("cloud").toList]),
  (("be_quiet").toList,
    [("be quiet").toList, ("dark rock").toList, ("pure rock").toList, ("silent wings").toList]),
  (("phanteks").toList,
    [("phanteks").toList, ("p500").toList, ("p400").toList, ("enthoo").toList])
]

/-- `OPAnalyzer.purpose_keywords` (src/op_analyzer.py lines 42-80). -/
def purposeKeywords : List (List Char × List (List Char)) := [
  (("gaming").toList,
    [("gaming").toList, ("game").toList, ("chơi game").toList, ("esport").toList, ("fps").toList, ("moba").toList, ("battle royale").toList, ("lol").toList, ("liên minh").toList, ("pubg").toList, ("valorant").toList, ("csgo").toList, ("counter strike").toList, ("dota").toList, ("fortnite").toList, ("rpg").toList, ("single player").toList, ("multiplayer").toList, ("steam").toList, ("epic").toList, ("gaming pc").toList, ("máy chơi game").toList]),
  (("work").toList,
    [("work").toList, ("làm việc").toList, ("văn phòng").toList, ("office").toList, ("excel").toList, ("word").toList, ("microsoft office").toList, ("google docs").toList, ("word processing").toList, ("spreadsheet").toList, ("outlook").toList, ("email").toList, ("zoom").toList, ("teams").toList, ("meet").toList, ("remote work").toList, ("wfh").toList, ("tác vụ văn phòng").toList]),
  (("programming").toList,
    [("programming").toList, ("coding").toList, ("development").toList, ("lập trình").toList, ("code").toList, ("developer").toList, ("software").toList, ("web dev").toList, ("app dev").toList, ("mobile dev").toList, ("devops").toList, ("ide").toList, ("visual studio").toList, ("vscode").toList, ("pycharm").toList, ("intellij").toList, ("android studio").toList, ("xcode").toList, ("github").toList, ("gitlab").toList]),
  (("graphics").toList,
    [("graphics").toList, ("design").toList, ("đồ họa").toList, ("thiết kế").toList, ("photoshop").toList, ("illustrator").toList, ("adobe").toList, ("gimp").toList, ("figma").toList, ("design").toList, ("illustration").toList, ("graphic design").toList, ("ui").toList, ("ux").toList, ("indesign").toList, ("lightroom").toList, ("premiere").toList, ("after effects").toList, ("blender").toList, ("rendering").toList, ("ray tracing").toList]),
  (("video_editing").toList,
    [("video").toList, ("editing").toList, ("biên tập").toList, ("chỉnh sửa video").toList, ("premiere").toList, ("after effects").toList, ("davinci resolve").toList, ("final cut").toList, ("sony vegas").toList, ("video production").toList, ("youtube").toList, ("livestream").toList, ("stream").toList, ("obs").toList, ("xsplit").toList, ("streamlabs").toList, ("video creator").toList]),
  (("3d_rendering").toList,
    [("3d").toList, ("rendering").toList, ("animation").toList, ("blender").toList, ("maya").toList, ("3ds max").toList, ("cinema 4d").toList, ("autocad").toList, ("revit").toList, ("sketchup").toList, ("3d modeling").toList, ("archviz").toList, ("architectural visualization").toList, ("cad").toList, ("render").toList]),
  (("streaming").toList,
    [("streaming").toList, ("stream").toList, ("broadcast").toList, ("obs").toList, ("streamlabs").toList, ("xsplit").toList, ("twitch").toList, ("youtube live").toList, ("facebook live").toList, ("streamer").toList, ("content creator").toList, ("influencer").toList, ("live").toList]),
  (("study").toList,
    [("study").toList, ("học tập").toList, ("school").toList, ("university").toList, ("education").toList, ("learning").toList, ("research").toList, ("thesis").toList, ("assignment").toList, ("coursework").toList, ("student").toList, ("e-learning").toList, ("online learning").toList, ("homework").toList, ("essay").toList])
]

/-- `OPAnalyzer.special_req_keywords` (src/op_analyzer.py lines 83-96). -/
def specialReqKeywords : List (List Char × List (List Char)) := [
  (("quiet").toList,
    [("quiet").toList, ("silent").toList, ("im lặng").toList, ("êm").toList, ("không ồn").toList, ("không tiếng").toList]),
  (("rgb").toList,
    [("rgb").toList, ("led").toList, ("lighting").toList, ("đèn").toList, ("ánh sáng").toList]),
  (("white").toList,
    [("white").toList, ("màu trắng").toList, ("case trắng").toList, ("white build").toList]),
  (("black").toList,
    [("black").toList, ("màu đen").toList, ("case đen").toList, ("black build").toList]),
  (("small").toList,
    [("itx").toList, ("small").toList, ("nhỏ gọn").toList, ("mini").toList, ("sff").toList]),
  (("upgrade").toList,
    [("upgrade").toList, ("nâng cấp").toList, ("mở rộng").toList, ("tương lai").toList, ("sau này").toList]),
  (("no_gpu").toList,
    [("không card").toList, ("không gpu").toList, ("onboard").toList, ("igpu").toList, ("không rời").toList]),
  (("wifi").toList,
    [("wifi").toList, ("wireless").toList, ("không dây").toList]),
  (("bluetooth").toList,
    [("bluetooth").toList, ("bt").toList]),
  (("hackintosh").toList,
    [("hackintosh").toList, ("macos").toList, ("mac os").toList]),
  (("overclocking").toList,
    [("oc").toList, ("overclock").toList, ("boost").toList, ("ép xung").toList]),
  (("low_power").toList,
    [("tiết kiệm điện").toList, ("power saving").toList, ("low power").toList, ("tdp thấp").toList])
]


/-- the Vietnamese diacritic letters of the embedded alphabet. -/
def viChars : List Char :=
  ("áàảãạăắằẳẵặâấầẩẫậđéèẻẽẹêếềểễệíìỉĩịóòỏõọôốồổỗộơớờởỡợúùủũụưứừửữựýỳỷỹỵ").toList

/-- a regex word character (`\w`): ASCII alphanumerics, underscore, and
the Vietnamese letters of the embedded alphabet (Python's Unicode `\b`
restricted to the characters that occur in this development). -/
def isWordChar (c : Char) : Bool := c.isAlphanum || c = '_' || viChars.contains c

def wordAt (text : List Char) (i : ℕ) : Bool :=
  match text.get? i with
  | some c => isWordChar c
  | none => false

/-- Python's `\b` at offset `i`: the word-character status changes
between the previous character (out of range counts as non-word) and the
character at `i`. -/
def boundaryAt (text : List Char) (i : ℕ) : Bool :=
  (if i = 0 then false else wordAt text (i - 1)) != wordAt text i

/-- the literal characters of the (escaped) keyword occur at offset `i`. -/
def sliceAt (kw text : List Char) (i : ℕ) : Bool :=
  ((text.drop i).take kw.length) == kw

def kwScanAux (kw text : List Char) : ℕ → ℕ → List ℕ
  | 0, _ => []
  | fuel + 1, i =>
    if i > text.length then []
    else if sliceAt kw text i && boundaryAt text i && boundaryAt text (i + kw.length) then
      i :: kwScanAux kw text fuel (i + max kw.length 1)
    else kwScanAux kw text fuel (i + 1)

/-- `re.finditer(r'\b' + re.escape(keyword) + r'\b', text)`: the start
offsets of the non-overlapping, word-boundary-delimited occurrences of
the keyword, left to right. -/
def kwBoundaryHits (kw text : List Char) : List ℕ :=
  kwScanAux kw text (text.length + 1) 0

structure Mention where
  keyword : List Char
  context : List Char
  position : ℕ
deriving Repr, DecidableEq

/-- `mentions.sort(key=lambda x: x['position'])` (Python's sort is
stable; inserting strictly-before only on `<` keeps equal positions in
their original order). -/
def sortByPosition (ms : List Mention) : List Mention :=
  List.insertionSort (fun a b => a.position < b.position) ms

/-- the shared shape of `ReplyAnalyzer.detect_components_in_text` and
`ReplyAnalyzer.detect_brands_in_text`: for every category keyword, every
word-boundary occurrence becomes a mention whose context is the slice
`text[max(0, start - before) : min(len(text), end + after)]`; categories
with no mention are omitted, mentions are sorted by position. -/
def detectMentions (dict : List (List Char × List (List Char)))
    (bef aft : ℕ) (text : List Char) : List (List Char × List Mention) :=
  if text.isEmpty then []
  else
    let t := replyPreprocessText text
    dict.filterMap (fun ck =>
      let ms := ck.2.flatMap (fun kw =>
        (kwBoundaryHits kw t).map (fun i =>
          { keyword := kw,
            context := (t.drop (i - bef)).take (min t.length (i + kw.length + aft) - (i - bef)),
            position := i }))
      if ms.isEmpty then none else some (ck.1, sortByPosition ms))

/-- `ReplyAnalyzer.detect_components_in_text` (src/reply_analyzer.py lines
149-179): context window 50 characters before, 100 after. -/
def detectComponentsInText (text : List Char) : List (List Char × List Mention) :=
  detectMentions componentKeywords 50 100 text

/-- `ReplyAnalyzer.detect_brands_in_text` (src/reply_analyzer.py lines
238-268): context window 30 characters before, 70 after. -/
def detectBrandsInText (text : List Char) : List (List Char × List Mention) :=
  detectMentions brandKeywords 30 70 text

/-- Python's `keyword in text`: substring containment, no word-boundary
requirement. -/
def containsSub (kw t : List Char) : Bool :=
  (List.range (t.length + 1)).any (fun i => ((t.drop i).take kw.length) == kw)

/-- the shared shape of `OPAnalyzer.extract_purposes_from_text` and
`OPAnalyzer.extract_special_requirements`: a category is reported (once,
in dictionary order) when any of its keywords occurs as a plain substring
of the preprocessed text. -/
def findOneTags (dict : List (List Char × List (List Char)))
    (text : List Char) : List (List Char) :=
  if text.isEmpty then []
  else
    let t := opPreprocessText text
    (dict.filter (fun pk => pk.2.any (fun kw => containsSub kw t))).map (fun pk => pk.1)

/-- `OPAnalyzer.extract_purposes_from_text` (src/op_analyzer.py lines
183-201). -/
def extractPurposesFromText (text : List Char) : List (List Char) :=
  findOneTags purposeKeywords text

/-- `OPAnalyzer.extract_special_requirements` (src/op_analyzer.py lines
203-221). -/
def extractSpecialRequirements (text : List Char) : List (List Char) :=
  findOneTags specialReqKeywords text

/-! Post and thread records and the OP / reply post analyzers.  Fields the
analyzers read through `dict.get(key, default)` are modelled as `Option`s
with the same defaults; `Except.error ()` models an exception escaping a
function that has no handler for it. -/

/-- The `author` field of a crawled post: the thread crawler produces an
object `{username, user_id}`, while the box and test crawlers in this
repository produce a plain username string. -/
inductive AuthorField where
  | str (s : List Char)
  | obj (username : Option (List Char)) (user_id : Option (List Char))
deriving Repr, DecidableEq

/-- `post.get('author', {}).get('username', '')`: a missing author field or
a missing username key defaults to `''`; calling `.get` on a plain string
raises `AttributeError`, modelled as `Except.error ()`. -/
def authorUsername : Option AuthorField → Except Unit (List Char)
  | none => .ok []
  | some (.obj u _) => .ok (u.getD [])
  | some (.str _) => .error ()

structure Post where
  post_id : Option (List Char) := none
  author : Option AuthorField := none
  created_date : Option (List Char) := none
  content_text : Option (List Char) := none
  images : Option (List (List Char)) := none
  reactions : Option (List (List Char × ℕ)) := none
deriving Repr, DecidableEq

structure PyThread where
  thread_id : Option (List Char) := none
  title : Option (List Char) := none
  posts : Option (List Post) := none
deriving Repr, DecidableEq

structure ReplyAnalysis where
  thread_id : List Char
  post_id : List Char
  user : List Char
  post_date : List Char
  components : List (List Char × List Mention)
  prices : List MoneyValue
  brands : List (List Char × List Mention)
  reactions : List (List Char × ℕ)
  has_images : Bool
  content_length : ℕ
deriving Repr, DecidableEq

/-- `ReplyAnalyzer.analyze_reply_post` (src/reply_analyzer.py lines
270-307): detect components, prices and brands in the content; a post with
no component mention yields `None`; otherwise the analysis record is
built, during which the author-username access can raise. -/
def analyzeReplyPost (post : Option Post) (threadId : List Char) :
    Except Unit (Option ReplyAnalysis) :=
  match post with
  | none => .ok none
  | some p =>
    let content := p.content_text.getD []
    let components := detectComponentsInText content
    let prices := extractPricesFromText content
    let brands := detectBrandsInText content
    if components.isEmpty then .ok none
    else
      match authorUsername p.author with
      | .error e => .error e
      | .ok user =>
        .ok (some
          { thread_id := threadId, post_id := p.post_id.getD [],
            user := user, post_date := p.created_date.getD [],
            components := components, prices := prices, brands := brands,
            reactions := p.reactions.getD [],
            has_images := (p.images.getD []).length > 0,
            content_length := content.length })

/-- `ReplyAnalyzer.analyze_thread_replies` (src/reply_analyzer.py lines
309-326): analyze every post after the first; an exception escapes (there
is no handler here), discarding the partial result list. -/
def analyzeThreadReplies (t : Option PyThread) : Except Unit (List ReplyAnalysis) :=
  match t with
  | none => .ok []
  | some td =>
    match td.posts with
    | none => .ok []
    | some posts =>
      if posts.length ≤ 1 then .ok []
      else
        posts.tail.foldlM (fun acc p =>
          (analyzeReplyPost (some p) (td.thread_id.getD [])).map
            (fun o => match o with | some a => acc ++ [a] | none => acc)) []

/-- `ReplyAnalyzer.analyze_all_replies` (src/reply_analyzer.py lines
328-363): the per-thread `try/except` turns an escaped exception into
skipping that entire thread's results. -/
def analyzeAllReplies (threads : List PyThread) : List ReplyAnalysis :=
  threads.flatMap (fun td =>
    match analyzeThreadReplies (some td) with
    | .ok l => l
    | .error _ => [])

structure OPAnalysis where
  thread_id : List Char
  title : List Char
  budget : Option MoneyValue
  purposes : List (List Char)
  special_requirements : List (List Char)
  user : List Char
  post_date : List Char
  content_length : ℕ
deriving Repr, DecidableEq

/-- `list(set(l))`, whose iteration order Python leaves unspecified;
modelled as duplicate removal keeping first occurrences (no claim depends
on the order). -/
def dedupKeepFirst : List (List Char) → List (List Char)
  | [] => []
  | x :: xs => x :: (dedupKeepFirst xs).filter (fun y => !(y == x))

/-- `OPAnalyzer.analyze_op_post` (src/op_analyzer.py lines 223-260):
budget and purposes from title and OP body, the title budget taking
priority when truthy (a returned budget dict is nonempty, hence truthy);
special requirements from title and body concatenated with a space; the
author-username access during record construction can raise. -/
def analyzeOpPost (t : Option PyThread) : Except Unit (Option OPAnalysis) :=
  match t with
  | none => .ok none
  | some td =>
    match td.posts with
    | none => .ok none
    | some [] => .ok none
    | some (op :: _) =>
      let title := td.title.getD []
      let titleBudget := extractBudgetFromText title
      let titlePurposes := extractPurposesFromText title
      let content := op.content_text.getD []
      let contentBudget := extractBudgetFromText content
      let contentPurposes := extractPurposesFromText content
      let specialReqs := extractSpecialRequirements (title ++ (" ").toList ++ content)
      let budget := match titleBudget with | some b => some b | none => contentBudget
      match authorUsername op.author with
      | .error e => .error e
      | .ok user =>
        .ok (some
          { thread_id := td.thread_id.getD [], title := title,
            budget := budget,
            purposes := dedupKeepFirst (titlePurposes ++ contentPurposes),
            special_requirements := specialReqs,
            user := user, post_date := op.created_date.getD [],
            content_length := content.length })

/-- `OPAnalyzer.analyze_all_ops` (src/op_analyzer.py lines 262-289): the
per-thread `try/except` skips a thread whose OP analysis raises. -/
def analyzeAllOps (threads : List PyThread) : List OPAnalysis :=
  threads.filterMap (fun td =>
    match analyzeOpPost (some td) with
    | .ok (some a) => some a
    | _ => none)

/-! Boolean predicates stating the spec's normal-form postconditions, and
concrete records used by individual claim theorems and witnesses. -/

/-- every whitespace character is a single space that is not followed by
another whitespace character (the normal form produced by collapsing
whitespace runs to one space). -/
def wsNormed : List Char → Bool
  | [] => true
  | c :: rest =>
    (!(isWsChar c) ||
      ((c == ' ') && (match rest.head? with | some d => !(isWsChar d) | none => true)))
    && wsNormed rest

/-- neither starts nor ends with a whitespace character. -/
def isTrimmedB (l : List Char) : Bool :=
  (match l.head? with | some c => !(isWsChar c) | none => true) &&
  (match l.getLast? with | some c => !(isWsChar c) | none => true)

def exceptOk : Except ε α → Bool
  | .ok _ => true
  | .error _ => false

def exceptVal : Except ε (Option α) → Option α
  | .ok o => o
  | .error _ => none

/-- round trip of rendering `n` in millions and re-parsing (`"{n} triệu"`). -/
def rtTrieu (n : ℕ) : Bool :=
  match extractBudgetFromText ((Nat.toDigits 10 n) ++ (" triệu").toList) with
  | some m => decide (m.value.num = n * 10 ^ m.value.exp)
  | none => false

/-- round trip of rendering `n * 1000` thousands and re-parsing. -/
def rtNghin (n : ℕ) : Bool :=
  match extractBudgetFromText ((Nat.toDigits 10 (n * 1000)) ++ (" nghìn").toList) with
  | some m => decide (m.value.num = n * 10 ^ m.value.exp)
  | none => false

/-- round trip of rendering `n * 1000000` đồng and re-parsing. -/
def rtDong (n : ℕ) : Bool :=
  match extractBudgetFromText ((Nat.toDigits 10 (n * 1000000)) ++ (" đồng").toList) with
  | some m => decide (m.value.num = n * 10 ^ m.value.exp)
  | none => false

/-- a reply post whose author is a plain username string and whose content
mentions a component (so the analysis record, author access included, is
built). -/
def strAuthorPost : Post :=
  { post_id := some (("p2").toList), author := some (.str (("alice").toList)),
    content_text := some (("cpu giá 3tr").toList) }

/-- the same post with the author in object form. -/
def objAuthorPost : Post :=
  { post_id := some (("p2").toList),
    author := some (.obj (some (("alice").toList)) none),
    content_text := some (("cpu giá 3tr").toList) }

def plainOpPost : Post :=
  { author := some (.obj (some (("bob").toList)) none),
    content_text := some (("hello").toList) }

/-- a thread whose single reply has a plain-string author. -/
def strReplyThread : PyThread :=
  { thread_id := some (("t1").toList), title := some (("title x").toList),
    posts := some [plainOpPost, strAuthorPost] }

def objReplyThread : PyThread :=
  { thread_id := some (("t1").toList), title := some (("title x").toList),
    posts := some [plainOpPost, objAuthorPost] }

/-- a thread whose opening post has a plain-string author. -/
def strOpThread : PyThread :=
  { thread_id := some (("t1").toList), title := some (("title x").toList),
    posts := some [{ plainOpPost with author := some (.str (("bob").toList)) }] }

def objOpThread : PyThread :=
  { thread_id := some (("t1").toList), title := some (("title x").toList),
    posts := some [plainOpPost] }

def c6Post : Post :=
  { content_text := some (("khoảng 15 triệu").toList),
    author := some (.obj (some (("user1").toList)) none) }

/-- the budget-priority scenario thread: no budget in the title, `"khoảng
15 triệu"` in the body. -/
def c6Thread : PyThread :=
  { thread_id := some (("t42").toList), title := some (("tư vấn pc").toList),
    posts := some [c6Post] }

def c6Expected : OPAnalysis :=
  { thread_id := ("t42").toList, title := ("tư vấn pc").toList,
    budget := some { value := ⟨15, 0⟩, unit := ("triệu").toList,
                     original_text := ("khoảng 15 tr").toList },
    purposes := [], special_requirements := [],
    user := ("user1").toList, post_date := [], content_length := 15 }

/-! Bridging lemmas between the executable decimal arithmetic and `ℚ`. -/

theorem DecQ.ble_iff (a b : DecQ) : (DecQ.ble a b = true) ↔ a.toRat ≤ b.toRat := by
  unfold DecQ.ble DecQ.toRat
  rw [decide_eq_true_eq, div_le_div_iff₀ (by positivity) (by positivity)]
  constructor
  · intro h; exact_mod_cast h
  · intro h; exact_mod_cast h

theorem DecQ.isZero_iff (a : DecQ) : (a.isZero = true) ↔ a.toRat = 0 := by
  unfold DecQ.isZero DecQ.toRat
  rw [decide_eq_true_eq, div_eq_zero_iff]
  constructor
  · intro h; exact Or.inl (by exact_mod_cast h)
  · rintro (h | h)
    · exact_mod_cast h
    · exact absurd h (by positivity)

theorem DecQ.toRat_ofNat (n : ℕ) : (DecQ.ofNat n).toRat = n := by
  unfold DecQ.ofNat DecQ.toRat
  simp

/-- **C10**: the three duplicated copies of the money unit-conversion
function — `OPAnalyzer.normalize_money_value`,
`ReplyAnalyzer.normalize_money_value` and
`DataAnalyzer.normalize_money_value` — are extensionally equal: on every
value string and unit string all three return the same result. -/
theorem normalize_money_value_copies_agree (valueStr unitStr : List Char) :
    opNormalizeMoneyValue valueStr unitStr = replyNormalizeMoneyValue valueStr unitStr ∧
    opNormalizeMoneyValue valueStr unitStr = dataNormalizeMoneyValue valueStr unitStr :=
  ⟨rfl, rfl⟩

/-- **C1, counterexample**: on the reply text `"cpu giá 3tr, ram giá 1tr"`
the collect-every-match price extractor does not return exactly two
entries (each of the three patterns in the bank re-collects both prices,
giving six). -/
theorem extract_prices_two_entries_false :
    (extractPricesFromText (("cpu giá 3tr, ram giá 1tr").toList)).length ≠ 2 := by
  decide

/-- **C1, amended**: on the reply text `"cpu giá 3tr, ram giá 1tr"` the
price extractor returns six MoneyValue entries — each of the three
patterns contributes each of the two prices once, without deduplication —
with values `[3, 1, 3, 1, 3, 1]`; in particular the distinct values are
exactly 3.0 and 1.0. -/
theorem extract_prices_multiple_prices_scenario :
    (extractPricesFromText (("cpu giá 3tr, ram giá 1tr").toList)).map
        (fun m => m.value.toRat) = [3, 1, 3, 1, 3, 1] := by
  have h : (extractPricesFromText (("cpu giá 3tr, ram giá 1tr").toList)).map
      (fun m => m.value) = [⟨3, 0⟩, ⟨1, 0⟩, ⟨3, 0⟩, ⟨1, 0⟩, ⟨3, 0⟩, ⟨1, 0⟩] := by decide
  have h2 := congrArg (List.map DecQ.toRat) h
  rw [List.map_map] at h2
  rw [show ((fun m => DecQ.toRat m.value) : MoneyValue → ℚ) =
      DecQ.toRat ∘ (fun m : MoneyValue => m.value) from rfl, h2]
  norm_num [DecQ.toRat]

/-- **C2, counterexample**: `OPAnalyzer.preprocess_text` (one of the three
`preprocess_text` copies the claim covers) performs no allow-list
filtering and no whitespace collapsing: on `"a  b!"` it keeps the `!` and
the double space, whereas the claimed normalizer would produce `"a b"`. -/
theorem preprocess_allowlist_collapse_false :
    opPreprocessText (("a  b!").toList) = ("a  b!").toList ∧
    ("a  b!").toList ≠ ("a b").toList := by
  constructor
  · decide
  · decide

/-- **C5, counterexample**: a candidate converting to exactly the upper
bound of the plausibility range is accepted, not rejected — in both
extractors: the OP budget extractor returns 100.0 on `"100 triệu"` (the
upper bound of the claimed right-open `[1, 100)`), and the reply price
extractor returns entries of value 50.0 on `"50tr"` (the upper bound of
the claimed right-open `[0.1, 50)`). -/
theorem money_upper_bound_rejected_false :
    (extractBudgetFromText (("100 triệu").toList)).map (fun m => m.value.toRat) =
      some 100 ∧
    (extractPricesFromText (("50tr").toList)).map (fun m => m.value.toRat) =
      [50, 50] := by
  constructor
  · have h : (extractBudgetFromText (("100 triệu").toList)).map (fun m => m.value) =
        some ⟨100, 0⟩ := by decide
    have h2 := congrArg (Option.map DecQ.toRat) h
    rw [Option.map_map] at h2
    rw [show ((fun m => DecQ.toRat m.value) : MoneyValue → ℚ) =
        DecQ.toRat ∘ (fun m : MoneyValue => m.value) from rfl, h2]
    norm_num [DecQ.toRat]
  · have h : (extractPricesFromText (("50tr").toList)).map (fun m => m.value) =
        [⟨50, 0⟩, ⟨50, 0⟩] := by decide
    have h2 := congrArg (List.map DecQ.toRat) h
    rw [List.map_map] at h2
    rw [show ((fun m => DecQ.toRat m.value) : MoneyValue → ℚ) =
        DecQ.toRat ∘ (fun m : MoneyValue => m.value) from rfl, h2]
    norm_num [DecQ.toRat]

/-- **C6**: whenever `analyze_op_post` produces an analysis record for a
thread (whose post list is nonempty, headed by the OP), the record's
budget is the title-derived budget when that is non-null, and the
body-derived budget otherwise. -/
theorem op_budget_title_priority (td : PyThread) (op : Post) (rest : List Post)
    (hp : td.posts = some (op :: rest)) (a : OPAnalysis)
    (ha : analyzeOpPost (some td) = .ok (some a)) :
    a.budget = match extractBudgetFromText (td.title.getD []) with
      | some b => some b
      | none => extractBudgetFromText (op.content_text.getD []) := by
  obtain ⟨tid, ttl, posts⟩ := td
  dsimp only at hp
  subst hp
  simp only [analyzeOpPost] at ha
  cases hau : authorUsername op.author with
  | error e =>
    rw [hau] at ha
    exact absurd ha (by simp)
  | ok user =>
    rw [hau] at ha
    simp only [Except.ok.injEq, Option.some.injEq] at ha
    subst ha
    rfl

/-- **C6, witness**: the budget-priority scenario — title `"tư vấn pc"`
(no budget match), body `"khoảng 15 triệu"` — yields the analysis record
whose budget is the body-derived 15.0. -/
theorem op_budget_title_priority_witness :
    analyzeOpPost (some c6Thread) = .ok (some c6Expected) ∧
    (c6Expected.budget = match extractBudgetFromText (c6Thread.title.getD []) with
      | some b => some b
      | none => extractBudgetFromText (c6Post.content_text.getD [])) ∧
    (c6Expected.budget.map (fun m => m.value.toRat) = some 15) := by
  refine ⟨by rfl, op_budget_title_priority c6Thread c6Post [] (by rfl) c6Expected (by rfl), ?_⟩
  norm_num [c6Expected, DecQ.toRat]

/-- **C4** (code bug): a reply post whose author is a plain username
string and whose text mentions a component makes `analyze_reply_post`
raise (`.get` on a string), and the enclosing per-thread handler then
skips the whole thread; the same post with the object-form author is
analyzed.  Likewise for the opening post in `analyze_op_post` /
`analyze_all_ops`. -/
theorem plain_string_author_skips_thread :
    exceptOk (analyzeReplyPost (some strAuthorPost) (("t1").toList)) = false ∧
    analyzeAllReplies [strReplyThread] = [] ∧
    (exceptVal (analyzeReplyPost (some objAuthorPost) (("t1").toList))).isSome = true ∧
    analyzeAllReplies [objReplyThread] ≠ [] ∧
    exceptOk (analyzeOpPost (some strOpThread)) = false ∧
    analyzeAllOps [strOpThread] = [] ∧
    (exceptVal (analyzeOpPost (some objOpThread))).isSome = true ∧
    analyzeAllOps [objOpThread] ≠ [] := by
  refine ⟨by decide, by decide, by decide, by decide, by decide, by decide, by decide, by decide⟩

/-! Lemmas about `List.findSome?` used to relate the extraction loop to
its candidate list. -/

theorem findSome?_append_eq {α β : Type} (l1 l2 : List α) (g : α → Option β) :
    (l1 ++ l2).findSome? g =
      match l1.findSome? g with
      | some b => some b
      | none => l2.findSome? g := by
  induction l1 with
  | nil => simp [List.findSome?]
  | cons a l ih =>
    simp only [List.cons_append, List.findSome?_cons]
    cases g a <;> simp [ih]

theorem findSome?_eq_none_of_all {α β : Type} (l : List α) (g : α → Option β)
    (h : ∀ x ∈ l, g x = none) : l.findSome? g = none := by
  induction l with
  | nil => rfl
  | cons a l ih =>
    rw [List.findSome?_cons, h a (by simp)]
    exact ih (fun x hx => h x (by simp [hx]))

/-- **C5, amended**: both money extractors gate on a *closed* plausibility
interval — the code's tests are `1 <= v <= 100` for the OP budget and
`0.1 <= v <= 50` for reply prices, inclusive on both ends, after the
falsy-zero check.  Whenever every candidate match of a text either fails
numeric conversion or converts to a value outside the closed interval (or
to the falsy 0.0), the budget extractor returns `None` and the price
extractor returns the empty sequence; in particular "2000 triệu" is
rejected by both.  (The original claim's right-open interval is wrong: a
candidate converting to exactly the upper bound is accepted.) -/
theorem extract_money_range_gating (textB textP : List Char)
    (hrejB : ∀ h ∈ budgetCandidates textB, ∀ v,
        opNormalizeMoneyValue h.val.1 h.val.2 = some v →
        v.toRat = 0 ∨ v.toRat < 1 ∨ 100 < v.toRat)
    (hrejP : ∀ h ∈ priceCandidates textP, ∀ v,
        replyNormalizeMoneyValue h.val.1 h.val.2 = some v →
        v.toRat = 0 ∨ v.toRat < 1 / 10 ∨ 50 < v.toRat) :
    extractBudgetFromText textB = none ∧ extractPricesFromText textP = [] := by
  constructor
  · unfold extractBudgetFromText
    by_cases hemp : textB.isEmpty
    · simp [hemp]
    · rw [if_neg hemp]
      apply findSome?_eq_none_of_all
      intro p hp
      apply findSome?_eq_none_of_all
      intro hit hhit
      have hmem : hit ∈ budgetCandidates textB := by
        unfold budgetCandidates
        rw [if_neg hemp]
        exact List.mem_flatMap.mpr ⟨p, hp, hhit⟩
      unfold acceptBudget
      cases hN : opNormalizeMoneyValue hit.val.1 hit.val.2 with
      | none => rfl
      | some v =>
        have hd := hrejB hit hmem v hN
        have hz : (!v.isZero && DecQ.ble (DecQ.ofNat 1) v && DecQ.ble v (DecQ.ofNat 100))
            = false := by
          rcases hd with h0 | hlt | hgt
          · have hzt : v.isZero = true := (DecQ.isZero_iff v).mpr h0
            simp [hzt]
          · have hbf : DecQ.ble (DecQ.ofNat 1) v = false := by
              rw [Bool.eq_false_iff]
              intro hb
              have hle2 := (DecQ.ble_iff _ _).mp hb
              rw [DecQ.toRat_ofNat] at hle2
              push_cast at hle2
              linarith
            simp [hbf]
          · have hbf : DecQ.ble v (DecQ.ofNat 100) = false := by
              rw [Bool.eq_false_iff]
              intro hb
              have hle2 := (DecQ.ble_iff _ _).mp hb
              rw [DecQ.toRat_ofNat] at hle2
              push_cast at hle2
              linarith
            simp [hbf]
        simp [hz]
  · unfold extractPricesFromText
    by_cases hemp : textP.isEmpty
    · simp [hemp]
    · rw [if_neg hemp]
      rw [List.eq_nil_iff_forall_not_mem]
      intro m hm
      obtain ⟨p, hp, hmm⟩ := List.mem_flatMap.mp hm
      obtain ⟨hit, hhit, hacc⟩ := List.mem_filterMap.mp hmm
      have hmem : hit ∈ priceCandidates textP := by
        unfold priceCandidates
        rw [if_neg hemp]
        exact List.mem_flatMap.mpr ⟨p, hp, hhit⟩
      have hnone : acceptPrice hit = none := by
        unfold acceptPrice
        cases hN : replyNormalizeMoneyValue hit.val.1 hit.val.2 with
        | none => rfl
        | some v =>
          have hd := hrejP hit hmem v hN
          have hz : (!v.isZero && DecQ.ble { num := 1, exp := 1 } v &&
              DecQ.ble v (DecQ.ofNat 50)) = false := by
            rcases hd with h0 | hlt | hgt
            · have hzt : v.isZero = true := (DecQ.isZero_iff v).mpr h0
              simp [hzt]
            · have hbf : DecQ.ble { num := 1, exp := 1 } v = false := by
                rw [Bool.eq_false_iff]
                intro hb
                have hle2 := (DecQ.ble_iff _ _).mp hb
                have h10 : DecQ.toRat { num := 1, exp := 1 } = 1 / 10 := by
                  norm_num [DecQ.toRat]
                rw [h10] at hle2
                linarith
              simp [hbf]
            · have hbf : DecQ.ble v (DecQ.ofNat 50) = false := by
                rw [Bool.eq_false_iff]
                intro hb
                have hle2 := (DecQ.ble_iff _ _).mp hb
                rw [DecQ.toRat_ofNat] at hle2
                push_cast at hle2
                linarith
              simp [hbf]
          simp [hz]
      rw [hnone] at hacc
      cases hacc

/-- **C5, witness**: on `"2000 triệu"` every candidate of both extractors
converts to 2000, outside both closed intervals, so the budget extractor
returns `None` and the price extractor returns no entries. -/
theorem extract_money_range_gating_witness :
    extractBudgetFromText (("2000 triệu").toList) = none ∧
    extractPricesFromText (("2000 triệu").toList) = [] := by
  apply extract_money_range_gating
  · intro h hmem v hv
    have hc : budgetCandidates (("2000 triệu").toList) =
        [{ pos := 0, len := 7, val := ((("2000").toList), (("tr").toList)),
           matched := ("2000 tr").toList }] := by decide
    rw [hc] at hmem
    simp only [List.mem_singleton] at hmem
    subst hmem
    have hn : opNormalizeMoneyValue (("2000").toList) (("tr").toList) = some ⟨2000, 0⟩ := by
      decide
    simp only [hn, Option.some.injEq] at hv
    subst hv
    right; right
    norm_num [DecQ.toRat]
  · intro h hmem v hv
    have hc : priceCandidates (("2000 triệu").toList) =
        [{ pos := 0, len := 7, val := ((("2000").toList), (("tr").toList)),
           matched := ("2000 tr").toList },
         { pos := 0, len := 7, val := ((("2000").toList), (("tr").toList)),
           matched := ("2000 tr").toList }] := by decide
    rw [hc] at hmem
    simp only [List.mem_cons, List.not_mem_nil, or_false] at hmem
    have hn : replyNormalizeMoneyValue (("2000").toList) (("tr").toList) = some ⟨2000, 0⟩ := by
      decide
    rcases hmem with rfl | rfl
    all_goals
      simp only [hn, Option.some.injEq] at hv
      subst hv
      right; right
      norm_num [DecQ.toRat]

set_option maxHeartbeats 4000000 in
/-- kernel evaluation of the unit-conversion round trip at every value of
the accepted budget range `[1, 100]`. -/
theorem round_trip_all_range : ((List.range 100).all (fun k =>
    rtTrieu (k + 1) && rtNghin (k + 1) && rtDong (k + 1))) = true := by
  decide

theorem round_trip_toRat (n : ℕ) (text : List Char)
    (h : (match extractBudgetFromText text with
          | some m => decide (m.value.num = n * 10 ^ m.value.exp)
          | none => false) = true) :
    (extractBudgetFromText text).map (fun m => m.value.toRat) = some (n : ℚ) := by
  cases hE : extractBudgetFromText text with
  | none => rw [hE] at h; cases h
  | some m =>
    rw [hE] at h
    simp only [decide_eq_true_eq] at h
    simp only [Option.map_some']
    have : m.value.toRat = (n : ℚ) := by
      unfold DecQ.toRat
      rw [h]
      push_cast
      exact mul_div_cancel_right₀ _ (by positivity)
    rw [this]

/-- **C7**: for every canonical value `v` of the accepted budget range
`[1, 100]`, rendering `v` as `"{v} triệu"`, `"{v*1000} nghìn"` and
`"{v*1000000} đồng"` and parsing each rendering with the OP budget
extractor yields exactly `v` back (exact equality over `ℚ`; the
floating-point tolerance of the claim is not needed). -/
theorem money_unit_round_trip (n : ℕ) (h1 : 1 ≤ n) (h2 : n ≤ 100) :
    ((extractBudgetFromText ((Nat.toDigits 10 n) ++ (" triệu").toList)).map
        (fun m => m.value.toRat) = some (n : ℚ)) ∧
    ((extractBudgetFromText ((Nat.toDigits 10 (n * 1000)) ++ (" nghìn").toList)).map
        (fun m => m.value.toRat) = some (n : ℚ)) ∧
    ((extractBudgetFromText ((Nat.toDigits 10 (n * 1000000)) ++ (" đồng").toList)).map
        (fun m => m.value.toRat) = some (n : ℚ)) := by
  have hmem : n - 1 ∈ List.range 100 := List.mem_range.mpr (by omega)
  have hall := List.all_eq_true.mp round_trip_all_range _ hmem
  have hn : n - 1 + 1 = n := by omega
  rw [hn] at hall
  simp only [Bool.and_eq_true] at hall
  obtain ⟨⟨hta, htb⟩, htc⟩ := hall
  exact ⟨round_trip_toRat n _ hta, round_trip_toRat n _ htb, round_trip_toRat n _ htc⟩

/-- **C7, witness**: the round trip at the concrete value 15. -/
theorem money_unit_round_trip_witness :
    ((extractBudgetFromText ((Nat.toDigits 10 15) ++ (" triệu").toList)).map
        (fun m => m.value.toRat) = some (15 : ℚ)) ∧
    ((extractBudgetFromText ((Nat.toDigits 10 (15 * 1000)) ++ (" nghìn").toList)).map
        (fun m => m.value.toRat) = some (15 : ℚ)) ∧
    ((extractBudgetFromText ((Nat.toDigits 10 (15 * 1000000)) ++ (" đồng").toList)).map
        (fun m => m.value.toRat) = some (15 : ℚ)) := by
  have h := money_unit_round_trip 15 (by norm_num) (by norm_num)
  exact_mod_cast h

/-! Character-level lemmas: ordering via code points, and the behaviour of
the pointwise lowercase map. -/

theorem charLe_toNat {a b : Char} : a ≤ b ↔ a.toNat ≤ b.toNat := by
  rw [Char.le_def, UInt32.le_def, BitVec.le_def]
  exact Iff.rfl

theorem toNat_ofNat_valid {n : ℕ} (h : n.isValidChar) : (Char.ofNat n).toNat = n := by
  unfold Char.ofNat
  rw [dif_pos h]
  rfl

theorem pyLower_toNat_upper {c : Char} (h1 : 'A' ≤ c) (h2 : c ≤ 'Z') :
    (pyLower c).toNat = c.toNat + 32 := by
  have hb2 : c.toNat ≤ 90 := charLe_toNat.mp h2
  unfold pyLower
  rw [if_pos ⟨h1, h2⟩]
  exact toNat_ofNat_valid (Or.inl (by omega))

theorem pyLower_idem (c : Char) : pyLower (pyLower c) = pyLower c := by
  by_cases h : 'A' ≤ c ∧ c ≤ 'Z'
  · have ht : (pyLower c).toNat = c.toNat + 32 := pyLower_toNat_upper h.1 h.2
    have hb1 : 65 ≤ c.toNat := charLe_toNat.mp h.1
    have hno : ¬('A' ≤ pyLower c ∧ pyLower c ≤ 'Z') := by
      rintro ⟨_, hz⟩
      have hzz := charLe_toNat.mp hz
      rw [ht, show ('Z').toNat = 90 from rfl] at hzz
      omega
    set d := pyLower c with hd
    show pyLower d = d
    unfold pyLower
    rw [if_neg hno]
  · have hc : pyLower c = c := by unfold pyLower; rw [if_neg h]
    rw [hc, hc]

theorem pyLower_fix_allowed {c : Char} (h : isAllowedChar c = true) : pyLower c = c := by
  have hall : allowedChars.all (fun c => pyLower c == c) = true := by decide
  have hmem : c ∈ allowedChars := by
    unfold isAllowedChar at h
    simpa using h
  simpa using List.all_eq_true.mp hall c hmem

/-! Head, last, and self-equality lemmas for `dropWhile` / `rdropWhile` /
`pyStrip`. -/

theorem head?_dropWhile_not_q (q : Char → Bool) (l : List Char) :
    ∀ c, (l.dropWhile q).head? = some c → q c = false := by
  induction l with
  | nil => intro c h; cases h
  | cons a t ih =>
    intro c h
    by_cases ha : q a
    · rw [List.dropWhile_cons, if_pos ha] at h
      exact ih c h
    · rw [List.dropWhile_cons, if_neg ha] at h
      simp only [List.head?_cons, Option.some.injEq] at h
      subst h
      simpa using ha

theorem head?_of_isPrefix {p d : List Char} (hp : p <+: d) {c : Char}
    (h : p.head? = some c) : d.head? = some c := by
  obtain ⟨t, rfl⟩ := hp
  cases p with
  | nil => cases h
  | cons a q => simpa using h

theorem rdropWhile_getLast?_not (q : Char → Bool) (l : List Char) :
    ∀ c, (l.rdropWhile q).getLast? = some c → q c = false := by
  intro c h
  have hne : l.rdropWhile q ≠ [] := by
    intro he
    rw [he] at h
    cases h
  have hlast := List.rdropWhile_last_not q l hne
  have hg : (l.rdropWhile q).getLast hne = c := by
    rw [List.getLast?_eq_getLast _ hne] at h
    exact Option.some.inj h
  rw [hg] at hlast
  simpa using hlast

theorem pyStrip_head_not (l : List Char) :
    ∀ c, (pyStrip l).head? = some c → isWsChar c = false := by
  intro c h
  unfold pyStrip at h
  exact head?_dropWhile_not_q isWsChar l c
    (head?_of_isPrefix (List.rdropWhile_prefix isWsChar (l.dropWhile isWsChar)) h)

theorem pyStrip_getLast_not (l : List Char) :
    ∀ c, (pyStrip l).getLast? = some c → isWsChar c = false := by
  intro c h
  unfold pyStrip at h
  exact rdropWhile_getLast?_not isWsChar _ c h

theorem dropWhile_eq_self_of_head?_not (q : Char → Bool) (l : List Char)
    (h : ∀ c, l.head? = some c → q c = false) : l.dropWhile q = l := by
  cases l with
  | nil => rfl
  | cons a t => simp [List.dropWhile_cons, h a rfl]

theorem rdropWhile_eq_self_of_getLast?_not (q : Char → Bool) (l : List Char)
    (h : ∀ c, l.getLast? = some c → q c = false) : l.rdropWhile q = l := by
  rw [List.rdropWhile_eq_self_iff]
  intro hl
  have := h (l.getLast hl) (List.getLast?_eq_getLast _ hl)
  simp [this]

theorem pyStrip_eq_self_of_trimmed (l : List Char)
    (hh : ∀ c, l.head? = some c → isWsChar c = false)
    (hl : ∀ c, l.getLast? = some c → isWsChar c = false) : pyStrip l = l := by
  unfold pyStrip
  rw [dropWhile_eq_self_of_head?_not _ _ hh, rdropWhile_eq_self_of_getLast?_not _ _ hl]

theorem pyStrip_idem (l : List Char) : pyStrip (pyStrip l) = pyStrip l :=
  pyStrip_eq_self_of_trimmed _ (pyStrip_head_not l) (pyStrip_getLast_not l)

theorem pyStrip_sublist (l : List Char) : (pyStrip l).Sublist l :=
  ((List.rdropWhile_prefix _ _).sublist).trans (List.dropWhile_suffix _).sublist

/-! The collapsed-whitespace normal form. -/

theorem collapseWs_nil : collapseWs [] = [] := by
  rw [collapseWs]

theorem collapseWs_cons (a : Char) (t : List Char) :
    collapseWs (a :: t) =
      if isWsChar a then ' ' :: collapseWs (t.dropWhile isWsChar)
      else a :: collapseWs t := by
  rw [collapseWs]

theorem collapseWs_head_not_ws_of (l : List Char)
    (h : ∀ c, l.head? = some c → isWsChar c = false) :
    ∀ c, (collapseWs l).head? = some c → isWsChar c = false := by
  cases l with
  | nil => intro c hc; rw [collapseWs_nil] at hc; cases hc
  | cons a t =>
    intro c hc
    have ha := h a rfl
    rw [collapseWs_cons, if_neg (by simp [ha])] at hc
    simp only [List.head?_cons, Option.some.injEq] at hc
    subst hc
    exact ha

theorem wsNormed_collapseWs (l : List Char) : wsNormed (collapseWs l) = true := by
  induction l using collapseWs.induct with
  | case1 => rw [collapseWs_nil]; rfl
  | case2 c rest hws ih =>
    rw [collapseWs_cons, if_pos hws]
    unfold wsNormed
    rw [Bool.and_eq_true]
    refine ⟨?_, ih⟩
    have hhead : ∀ d, (collapseWs (rest.dropWhile isWsChar)).head? = some d →
        isWsChar d = false :=
      collapseWs_head_not_ws_of _ (head?_dropWhile_not_q isWsChar rest)
    cases hc : (collapseWs (rest.dropWhile isWsChar)).head? with
    | none => simp [hc]
    | some d => simp [hc, hhead d hc]
  | case3 c rest hws ih =>
    rw [collapseWs_cons, if_neg hws]
    unfold wsNormed
    rw [Bool.and_eq_true]
    refine ⟨?_, ih⟩
    simp [show isWsChar c = false from by simpa using hws]

theorem collapseWs_eq_self (l : List Char) (h : wsNormed l = true) : collapseWs l = l := by
  induction l with
  | nil => exact collapseWs_nil
  | cons a t ih =>
    unfold wsNormed at h
    rw [Bool.and_eq_true] at h
    by_cases ha : isWsChar a
    · have h1 := h.1
      rw [ha] at h1
      simp only [Bool.not_true, Bool.false_or, Bool.and_eq_true, beq_iff_eq] at h1
      have ht : t.dropWhile isWsChar = t := by
        apply dropWhile_eq_self_of_head?_not
        intro c hc
        rw [hc] at h1
        simpa using h1.2
      rw [collapseWs_cons, if_pos ha, ht, ih h.2, h1.1]
    · rw [collapseWs_cons, if_neg ha, ih h.2]

theorem mem_collapseWs (l : List Char) (c : Char) (hc : c ∈ collapseWs l) :
    c = ' ' ∨ c ∈ l := by
  induction l using collapseWs.induct with
  | case1 => rw [collapseWs_nil] at hc; cases hc
  | case2 a rest hws ih =>
    rw [collapseWs_cons, if_pos hws] at hc
    rcases List.mem_cons.mp hc with h | h
    · exact Or.inl h
    · rcases ih h with h' | h'
      · exact Or.inl h'
      · exact Or.inr (List.mem_cons_of_mem a ((List.dropWhile_suffix isWsChar).sublist.subset h'))
  | case3 a rest hws ih =>
    rw [collapseWs_cons, if_neg hws] at hc
    rcases List.mem_cons.mp hc with h | h
    · exact Or.inr (h ▸ List.mem_cons_self a rest)
    · rcases ih h with h' | h'
      · exact Or.inl h'
      · exact Or.inr (List.mem_cons_of_mem a h')

theorem wsNormed_append_right (p q : List Char) (h : wsNormed (p ++ q) = true) :
    wsNormed q = true := by
  induction p with
  | nil => exact h
  | cons a t ih =>
    rw [List.cons_append] at h
    unfold wsNormed at h
    rw [Bool.and_eq_true] at h
    exact ih h.2

theorem wsNormed_append_left (p q : List Char) (h : wsNormed (p ++ q) = true) :
    wsNormed p = true := by
  induction p with
  | nil => rfl
  | cons a t ih =>
    rw [List.cons_append] at h
    unfold wsNormed at h
    rw [Bool.and_eq_true] at h
    unfold wsNormed
    rw [Bool.and_eq_true]
    refine ⟨?_, ih h.2⟩
    have h1 := h.1
    cases t with
    | nil =>
      simp only [List.nil_append] at h1
      rcases (Bool.or_eq_true _ _).mp h1 with h2 | h2
      · simp [h2]
      · rw [Bool.and_eq_true] at h2
        simp [h2.1]
    | cons b u => simpa using h1

/-! Idempotence and normal-form facts for the three preprocessors. -/

theorem data_core_chars (s : List Char) (c : Char)
    (hc : c ∈ collapseWs ((s.map pyLower).filter isAllowedChar)) :
    isAllowedChar c = true := by
  rcases mem_collapseWs _ c hc with h | h
  · subst h; decide
  · exact (List.mem_filter.mp h).2

theorem dataPre_chars (s : List Char) :
    ∀ c ∈ dataPreprocessText s, isAllowedChar c = true := by
  intro c hc
  unfold dataPreprocessText at hc
  by_cases hs : s.isEmpty
  · rw [if_pos hs] at hc; cases hc
  · rw [if_neg hs] at hc
    exact data_core_chars s c ((pyStrip_sublist _).subset hc)

theorem dataPre_wsNormed (s : List Char) : wsNormed (dataPreprocessText s) = true := by
  unfold dataPreprocessText
  by_cases hs : s.isEmpty
  · rw [if_pos hs]; rfl
  · rw [if_neg hs]
    set u := collapseWs ((nfcNorm (s.map pyLower)).filter isAllowedChar) with hu
    have h1 : wsNormed u = true := wsNormed_collapseWs _
    obtain ⟨p, hp⟩ := List.dropWhile_suffix (l := u) isWsChar
    have h2 : wsNormed (u.dropWhile isWsChar) = true :=
      wsNormed_append_right p _ (by rw [hp]; exact h1)
    obtain ⟨q, hq⟩ := List.rdropWhile_prefix isWsChar (u.dropWhile isWsChar)
    unfold pyStrip
    exact wsNormed_append_left _ q (by rw [hq]; exact h2)

theorem dataPre_trimmed (s : List Char) : isTrimmedB (dataPreprocessText s) = true := by
  unfold dataPreprocessText
  by_cases hs : s.isEmpty
  · rw [if_pos hs]; rfl
  · rw [if_neg hs]
    unfold isTrimmedB
    rw [Bool.and_eq_true]
    constructor
    · cases hh : (pyStrip (collapseWs ((nfcNorm (s.map pyLower)).filter isAllowedChar))).head? with
      | none => rfl
      | some c => simp [pyStrip_head_not _ c hh]
    · cases hh : (pyStrip (collapseWs ((nfcNorm (s.map pyLower)).filter isAllowedChar))).getLast? with
      | none => rfl
      | some c => simp [pyStrip_getLast_not _ c hh]

theorem op_preprocess_idem (s : List Char) :
    opPreprocessText (opPreprocessText s) = opPreprocessText s := by
  by_cases hs : s.isEmpty
  · unfold opPreprocessText
    rw [if_pos hs]
    rfl
  · have hds : opPreprocessText s = pyStrip (s.map pyLower) := by
      unfold opPreprocessText
      rw [if_neg hs]
      rfl
    rw [hds]
    by_cases ht : (pyStrip (s.map pyLower)).isEmpty
    · have h0 : pyStrip (s.map pyLower) = [] := by simpa using ht
      rw [h0]
      rfl
    · unfold opPreprocessText
      rw [if_neg ht]
      have hmap : (pyStrip (s.map pyLower)).map pyLower = pyStrip (s.map pyLower) := by
        have hfix : ∀ c ∈ pyStrip (s.map pyLower), pyLower c = c := by
          intro c hc
          have hcm : c ∈ s.map pyLower := (pyStrip_sublist _).subset hc
          obtain ⟨a, _, rfl⟩ := List.mem_map.mp hcm
          exact pyLower_idem a
        rw [List.map_congr_left hfix, List.map_id']
      show pyStrip (nfcNorm ((pyStrip (s.map pyLower)).map pyLower)) = pyStrip (s.map pyLower)
      rw [show nfcNorm ((pyStrip (s.map pyLower)).map pyLower) =
        (pyStrip (s.map pyLower)).map pyLower from rfl, hmap]
      exact pyStrip_idem _

theorem data_preprocess_idem (s : List Char) :
    dataPreprocessText (dataPreprocessText s) = dataPreprocessText s := by
  by_cases hs : s.isEmpty
  · unfold dataPreprocessText
    rw [if_pos hs]
    rfl
  · have hds : dataPreprocessText s =
        pyStrip (collapseWs ((s.map pyLower).filter isAllowedChar)) := by
      unfold dataPreprocessText
      rw [if_neg hs]
      rfl
    by_cases ht : (dataPreprocessText s).isEmpty
    · have h0 : dataPreprocessText s = [] := by simpa using ht
      rw [h0]
      rfl
    · have hchars := dataPre_chars s
      have hwsn := dataPre_wsNormed s
      have htrim := dataPre_trimmed s
      set t := dataPreprocessText s with htdef
      have hmap : t.map pyLower = t := by
        have hfix : ∀ c ∈ t, pyLower c = c := fun c hc =>
          pyLower_fix_allowed (hchars c hc)
        rw [List.map_congr_left hfix, List.map_id']
      have hfil : t.filter isAllowedChar = t :=
        List.filter_eq_self.mpr hchars
      have hcol : collapseWs t = t := collapseWs_eq_self _ hwsn
      have hstr : pyStrip t = t := by
        apply pyStrip_eq_self_of_trimmed
        · intro c hc
          unfold isTrimmedB at htrim
          rw [Bool.and_eq_true] at htrim
          have h1 := htrim.1
          rw [hc] at h1
          simpa using h1
        · intro c hc
          unfold isTrimmedB at htrim
          rw [Bool.and_eq_true] at htrim
          have h2 := htrim.2
          rw [hc] at h2
          simpa using h2
      calc dataPreprocessText t
          = pyStrip (collapseWs ((nfcNorm (t.map pyLower)).filter isAllowedChar)) := by
            unfold dataPreprocessText
            rw [if_neg ht]
        _ = t := by
            rw [show nfcNorm (t.map pyLower) = t.map pyLower from rfl, hmap, hfil, hcol, hstr]

/-- **C8**: all three `preprocess_text` normalizers (OP analyzer, reply
analyzer, data analyzer) are idempotent: `normalize(normalize(s)) =
normalize(s)` for every string `s`. -/
theorem preprocess_idempotent (s : List Char) :
    opPreprocessText (opPreprocessText s) = opPreprocessText s ∧
    replyPreprocessText (replyPreprocessText s) = replyPreprocessText s ∧
    dataPreprocessText (dataPreprocessText s) = dataPreprocessText s :=
  ⟨op_preprocess_idem s, op_preprocess_idem s, data_preprocess_idem s⟩

/-- **C2, amended**: only `DataAnalyzer.preprocess_text` implements the
full normalizer of the claim — its output consists solely of allow-listed
characters, contains no whitespace other than single non-adjacent spaces,
and is trimmed — while `OPAnalyzer.preprocess_text` and
`ReplyAnalyzer.preprocess_text` (identical to each other) only lowercase,
NFC-normalize and trim: their output is a sublist of the lowercased input,
with no character dropped by any allow-list and no whitespace collapsed. -/
theorem preprocess_normal_forms (s : List Char) :
    (dataPreprocessText s).all isAllowedChar = true ∧
    wsNormed (dataPreprocessText s) = true ∧
    isTrimmedB (dataPreprocessText s) = true ∧
    replyPreprocessText s = opPreprocessText s ∧
    (opPreprocessText s).Sublist (nfcNorm (s.map pyLower)) := by
  refine ⟨List.all_eq_true.mpr (dataPre_chars s), dataPre_wsNormed s, dataPre_trimmed s,
    rfl, ?_⟩
  unfold opPreprocessText
  by_cases hs : s.isEmpty
  · rw [if_pos hs]
    exact List.nil_sublist _
  · rw [if_neg hs]
    exact pyStrip_sublist _

/-! Soundness of the word-boundary keyword scan, and the context-window
facts derived from it. -/

theorem sliceAt_eq {kw text : List Char} {i : ℕ} (h : sliceAt kw text i = true) :
    (text.drop i).take kw.length = kw := by
  unfold sliceAt at h
  simpa using h

theorem sliceAt_le {kw text : List Char} {i : ℕ} (h : sliceAt kw text i = true)
    (hkw : kw ≠ []) : i + kw.length ≤ text.length := by
  have hlen := congrArg List.length (sliceAt_eq h)
  rw [List.length_take, List.length_drop] at hlen
  have h1 : 1 ≤ kw.length := by
    cases kw with
    | nil => exact absurd rfl hkw
    | cons a t => simp
  omega

theorem kwScanAux_sound (kw text : List Char) :
    ∀ fuel i j, j ∈ kwScanAux kw text fuel i →
      sliceAt kw text j = true ∧ boundaryAt text j = true ∧
      boundaryAt text (j + kw.length) = true := by
  intro fuel
  induction fuel with
  | zero => intro i j h; cases h
  | succ f ih =>
    intro i j h
    rw [kwScanAux] at h
    by_cases h1 : i > text.length
    · rw [if_pos h1] at h
      cases h
    · rw [if_neg h1] at h
      by_cases h2 : (sliceAt kw text i && boundaryAt text i &&
          boundaryAt text (i + kw.length)) = true
      · rw [if_pos h2] at h
        rcases List.mem_cons.mp h with rfl | hmem
        · simp only [Bool.and_eq_true] at h2
          exact ⟨h2.1.1, h2.1.2, h2.2⟩
        · exact ih _ _ hmem
      · rw [if_neg h2] at h
        exact ih _ _ h

theorem kwBoundaryHits_sound {kw text : List Char} {i : ℕ}
    (h : i ∈ kwBoundaryHits kw text) :
    sliceAt kw text i = true ∧ boundaryAt text i = true ∧
    boundaryAt text (i + kw.length) = true :=
  kwScanAux_sound kw text _ 0 i h

theorem mem_sortByPosition {m : Mention} {ms : List Mention} :
    m ∈ sortByPosition ms ↔ m ∈ ms :=
  (List.perm_insertionSort _ ms).mem_iff

/-- decomposition of a mention produced by the generic tagger. -/
theorem detectMentions_mem {dict : List (List Char × List (List Char))} {bef aft : ℕ}
    {text : List Char} {cms : List Char × List Mention} {m : Mention}
    (hc : cms ∈ detectMentions dict bef aft text) (hm : m ∈ cms.2) :
    ∃ ck ∈ dict, ∃ kw ∈ ck.2, ∃ i ∈ kwBoundaryHits kw (replyPreprocessText text),
      m = { keyword := kw,
            context := ((replyPreprocessText text).drop (i - bef)).take
              (min (replyPreprocessText text).length (i + kw.length + aft) - (i - bef)),
            position := i } := by
  unfold detectMentions at hc
  by_cases hemp : text.isEmpty
  · rw [if_pos hemp] at hc
    cases hc
  · rw [if_neg hemp] at hc
    obtain ⟨ck, hck, hf⟩ := List.mem_filterMap.mp hc
    dsimp only at hf
    by_cases hms : (ck.2.flatMap (fun kw =>
        (kwBoundaryHits kw (replyPreprocessText text)).map (fun i =>
          ({ keyword := kw,
             context := ((replyPreprocessText text).drop (i - bef)).take
               (min (replyPreprocessText text).length (i + kw.length + aft) - (i - bef)),
             position := i } : Mention)))).isEmpty
    · rw [if_pos hms] at hf
      cases hf
    · rw [if_neg hms] at hf
      obtain ⟨rfl⟩ := hf
      have hm2 : m ∈ ck.2.flatMap (fun kw =>
          (kwBoundaryHits kw (replyPreprocessText text)).map (fun i =>
            ({ keyword := kw,
               context := ((replyPreprocessText text).drop (i - bef)).take
                 (min (replyPreprocessText text).length (i + kw.length + aft) - (i - bef)),
               position := i } : Mention))) := mem_sortByPosition.mp hm
      obtain ⟨kw, hkw, hmm⟩ := List.mem_flatMap.mp hm2
      obtain ⟨i, hi, heq⟩ := List.mem_map.mp hmm
      exact ⟨ck, hck, kw, hkw, i, hi, heq.symm⟩

theorem containsSub_of_slice (kw ctx : List Char) (idx : ℕ)
    (hidx : idx ≤ ctx.length) (h : (ctx.drop idx).take kw.length = kw) :
    containsSub kw ctx = true := by
  unfold containsSub
  rw [List.any_eq_true]
  exact ⟨idx, List.mem_range.mpr (by omega), by simpa using h⟩

theorem window_contains_kw (t kw : List Char) (i bef aft : ℕ)
    (hslice : (t.drop i).take kw.length = kw) (hle : i + kw.length ≤ t.length) :
    containsSub kw ((t.drop (i - bef)).take
      (min t.length (i + kw.length + aft) - (i - bef))) = true := by
  have hstart : i - bef ≤ i := Nat.sub_le i bef
  have hie : i + kw.length ≤ min t.length (i + kw.length + aft) :=
    le_min hle (by omega)
  apply containsSub_of_slice kw _ (i - (i - bef))
  · rw [List.length_take, List.length_drop]
    omega
  · rw [List.drop_take, List.drop_drop]
    have e1 : i - bef + (i - (i - bef)) = i := by omega
    rw [e1, List.take_take]
    have e2 : min kw.length (min t.length (i + kw.length + aft) - (i - bef) - (i - (i - bef)))
        = kw.length := by omega
    rw [e2, hslice]

/-- the generic tagger satisfies the claimed context-window bounds. -/
theorem detectMentions_window (dict : List (List Char × List (List Char))) (bef aft : ℕ)
    (text : List Char) (hkw : ∀ ck ∈ dict, ∀ kw ∈ ck.2, kw ≠ []) :
    (detectMentions dict bef aft text).all (fun cms => cms.2.all (fun m =>
      decide (m.context.length ≤ bef + m.keyword.length + aft) &&
      containsSub m.keyword m.context)) = true := by
  rw [List.all_eq_true]
  intro cms hc
  rw [List.all_eq_true]
  intro m hm
  obtain ⟨ck, hck, kw, hkwm, i, hi, rfl⟩ := detectMentions_mem hc hm
  obtain ⟨hslice, hb1, hb2⟩ := kwBoundaryHits_sound hi
  have hle := sliceAt_le hslice (hkw ck hck kw hkwm)
  have heq := sliceAt_eq hslice
  rw [Bool.and_eq_true]
  constructor
  · rw [decide_eq_true_eq]
    show (((replyPreprocessText text).drop (i - bef)).take
        (min (replyPreprocessText text).length (i + kw.length + aft) - (i - bef))).length
      ≤ bef + kw.length + aft
    rw [List.length_take, List.length_drop]
    omega
  · exact window_contains_kw (replyPreprocessText text) kw i bef aft heq hle

/-- **C9**: every keyword mention produced by the component tagger (window
50 before / 100 after) and the brand tagger (window 30 before / 70 after)
has a context no longer than before + keyword-length + after that contains
the matched keyword as a substring. -/
theorem context_window_bounds (text : List Char) :
    ((detectComponentsInText text).all (fun cms => cms.2.all (fun m =>
      decide (m.context.length ≤ 50 + m.keyword.length + 100) &&
      containsSub m.keyword m.context))) = true ∧
    ((detectBrandsInText text).all (fun cms => cms.2.all (fun m =>
      decide (m.context.length ≤ 30 + m.keyword.length + 70) &&
      containsSub m.keyword m.context))) = true :=
  ⟨detectMentions_window componentKeywords 50 100 text (by decide),
   detectMentions_window brandKeywords 30 70 text (by decide)⟩

/-- **C3, counterexample**: the find_one variant is not word-boundary
delimited: on the text "gamer" the purpose tagger reports "gaming" — the
keyword "game" matches as a substring of the larger token "gamer" — even
though no keyword of the gaming category occurs word-boundary-delimited
in "gamer". -/
theorem find_one_word_boundary_false :
    extractPurposesFromText (("gamer").toList) = [("gaming").toList] ∧
    (purposeKeywords.all (fun pk =>
      !(pk.1 == ("gaming").toList) ||
        pk.2.all (fun kw => (kwBoundaryHits kw (("gamer").toList)).isEmpty))) = true := by
  exact ⟨by decide, by decide⟩

/-- every mention of the generic tagger sits at a word-boundary-delimited
exact occurrence of its keyword. -/
theorem detectMentions_boundary {dict : List (List Char × List (List Char))}
    {bef aft : ℕ} {text : List Char} {cms : List Char × List Mention} {m : Mention}
    (hc : cms ∈ detectMentions dict bef aft text) (hm : m ∈ cms.2) :
    sliceAt m.keyword (replyPreprocessText text) m.position = true ∧
    boundaryAt (replyPreprocessText text) m.position = true ∧
    boundaryAt (replyPreprocessText text) (m.position + m.keyword.length) = true := by
  obtain ⟨ck, hck, kw, hkwm, i, hi, rfl⟩ := detectMentions_mem hc hm
  exact kwBoundaryHits_sound hi

/-- the find_one-style tagger reports a category exactly when one of its
keywords occurs as a plain substring of the preprocessed text (no word
boundary is required). -/
theorem findOneTags_mem_iff (dict : List (List Char × List (List Char)))
    (hne : ∀ pk ∈ dict, ∀ kw ∈ pk.2, kw ≠ []) (text p : List Char) :
    p ∈ findOneTags dict text ↔
      ∃ pk ∈ dict, pk.1 = p ∧
        pk.2.any (fun kw => containsSub kw (opPreprocessText text)) = true := by
  unfold findOneTags
  by_cases hemp : text.isEmpty
  · rw [if_pos hemp]
    have hOp : opPreprocessText text = [] := by
      unfold opPreprocessText
      rw [if_pos hemp]
    rw [hOp]
    simp only [List.not_mem_nil, false_iff]
    rintro ⟨pk, hpk, hp1, hany⟩
    rw [List.any_eq_true] at hany
    obtain ⟨kw, hkwm, hcs⟩ := hany
    have hkne : kw ≠ [] := hne pk hpk kw hkwm
    unfold containsSub at hcs
    rw [List.any_eq_true] at hcs
    obtain ⟨idx, _, hcs2⟩ := hcs
    simp only [List.drop_nil, List.take_nil, beq_iff_eq] at hcs2
    exact hkne hcs2.symm
  · rw [if_neg hemp]
    constructor
    · intro hmem
      obtain ⟨pk, hpk, rfl⟩ := List.mem_map.mp hmem
      have hfl := List.mem_filter.mp hpk
      exact ⟨pk, hfl.1, rfl, hfl.2⟩
    · rintro ⟨pk, hpk, rfl, hany⟩
      exact List.mem_map.mpr ⟨pk, List.mem_filter.mpr ⟨hpk, hany⟩, rfl⟩

/-- **C3, amended**: the full tag variant — components
(`detect_components_in_text`) and brands (`detect_brands_in_text`) — is
word-boundary-delimited: every mention's position carries the keyword as
an exact slice with a regex word boundary on both sides, so "ram" cannot
match inside "gram" or "program" and "i5" cannot match inside "wifi5".
The find_one variant — purposes (`extract_purposes_from_text`) and
special requirements (`extract_special_requirements`) — is not: it uses
plain substring containment, reporting a category exactly when one of its
keywords is a substring of the preprocessed text, word boundaries or not. -/
theorem keyword_matching_semantics :
    (∀ text : List Char, ∀ cms ∈ detectComponentsInText text, ∀ m ∈ cms.2,
        sliceAt m.keyword (replyPreprocessText text) m.position = true ∧
        boundaryAt (replyPreprocessText text) m.position = true ∧
        boundaryAt (replyPreprocessText text) (m.position + m.keyword.length) = true) ∧
    (∀ text : List Char, ∀ cms ∈ detectBrandsInText text, ∀ m ∈ cms.2,
        sliceAt m.keyword (replyPreprocessText text) m.position = true ∧
        boundaryAt (replyPreprocessText text) m.position = true ∧
        boundaryAt (replyPreprocessText text) (m.position + m.keyword.length) = true) ∧
    (∀ text p : List Char,
        p ∈ extractPurposesFromText text ↔
          ∃ pk ∈ purposeKeywords, pk.1 = p ∧
            pk.2.any (fun kw => containsSub kw (opPreprocessText text)) = true) ∧
    (∀ text p : List Char,
        p ∈ extractSpecialRequirements text ↔
          ∃ pk ∈ specialReqKeywords, pk.1 = p ∧
            pk.2.any (fun kw => containsSub kw (opPreprocessText text)) = true) := by
  refine ⟨?_, ?_, ?_, ?_⟩
  · intro text cms hc m hm
    exact detectMentions_boundary hc hm
  · intro text cms hc m hm
    exact detectMentions_boundary hc hm
  · intro text p
    exact findOneTags_mem_iff purposeKeywords (by decide) text p
  · intro text p
    exact findOneTags_mem_iff specialReqKeywords (by decide) text p

/-- **C3, witness**: concrete boundary-delimited mentions for a component
("cpu" in "cpu") and a brand ("msi" in "msi"), a concrete
substring-matched purpose ("gaming" from "game" inside the larger token
"gamer"), and a concrete substring-matched special requirement ("wifi" in
"local wifi"). -/
theorem keyword_matching_semantics_witness :
    (sliceAt (("cpu").toList) (replyPreprocessText (("cpu").toList)) 0 = true ∧
     boundaryAt (replyPreprocessText (("cpu").toList)) 0 = true ∧
     boundaryAt (replyPreprocessText (("cpu").toList)) (0 + (("cpu").toList).length)
       = true) ∧
    (sliceAt (("msi").toList) (replyPreprocessText (("msi").toList)) 0 = true ∧
     boundaryAt (replyPreprocessText (("msi").toList)) 0 = true ∧
     boundaryAt (replyPreprocessText (("msi").toList)) (0 + (("msi").toList).length)
       = true) ∧
    (("gaming").toList ∈ extractPurposesFromText (("gamer").toList)) ∧
    (("wifi").toList ∈ extractSpecialRequirements (("local wifi").toList)) := by
  refine ⟨?_, ?_, ?_, ?_⟩
  · exact keyword_matching_semantics.1 (("cpu").toList)
      ((("cpu").toList),
        [{ keyword := ("cpu").toList, context := ("cpu").toList, position := 0 }])
      (by decide)
      { keyword := ("cpu").toList, context := ("cpu").toList, position := 0 }
      (by decide)
  · exact keyword_matching_semantics.2.1 (("msi").toList)
      ((("msi").toList),
        [{ keyword := ("msi").toList, context := ("msi").toList, position := 0 }])
      (by decide)
      { keyword := ("msi").toList, context := ("msi").toList, position := 0 }
      (by decide)
  · exact (keyword_matching_semantics.2.2.1 (("gamer").toList) (("gaming").toList)).mpr
      (by decide)
  · exact (keyword_matching_semantics.2.2.2 (("local wifi").toList) (("wifi").toList)).mpr
      (by decide)

end Voz
